import Mathlib

/-!
Verification of the HDC Workflow Agent (src/app.py) against its
natural-language specification.

The deterministic Python functions (`call_hdc_api`, `extract_json_blocks`,
`identify_config_type`, `deploy_configurations`, the Streamlit session-state
handlers) are shallowly embedded as Lean functions.  The configuration
generation rules are expressed in the source as an exact system prompt
(fixed JSON templates per step type, a path-splitting algorithm, fixed
output-value constants); those concrete templates are embedded as
deterministic Lean definitions with the same structure.
-/

namespace HdcAgent

/-! ## HTTP boundary (`call_hdc_api`, src/app.py lines 25-51)

The outcome of `requests.post` is modelled as an inductive: either a
response arrived (with status code, raw body text, and — abstracting the
HTTP library's `response.json()` — an optional rendering of the parsed
JSON body as it would appear interpolated in a Python f-string), or a
transport exception was raised (connection error, timeout, or any other
exception, each carrying its message).  For a connection error the code
interpolates the request URL into the message, so the constructor carries
the url as well. -/

inductive HttpOutcome where
  | response (status : Nat) (text : String) (jsonRendering : Option String)
  | connectionError (url : String) (msg : String)
  | timeout (msg : String)
  | otherError (msg : String)
deriving DecidableEq, Repr

/-- The value paired with the success flag: on success the parsed JSON body,
a `{"message": ...}` wrapper, or — on any failure — a plain error string
(Python returns a dict in the success branches and a string in the failure
branches). -/
inductive HdcDetail where
  | jsonBody (rendering : String)
  | messageObj (s : String)
  | errText (s : String)
deriving DecidableEq, Repr

/-- Embedding of `call_hdc_api` (src/app.py lines 25-51).  The Python
function wraps the whole call in `try/except` and returns a
`(success, detail)` pair in every branch; totality of this Lean function is
the image of "never raises past this boundary". -/
def call_hdc_api (o : HttpOutcome) : Bool × HdcDetail :=
  match o with
  | .response status text jsonRendering =>
      if status = 200 ∨ status = 201 ∨ status = 204 then
        if text.trim = "" then
          (true, .messageObj "Deployed successfully (no response body)")
        else
          match jsonRendering with
          | some j => (true, .jsonBody j)
          | none => (true, .messageObj text)
      else
        let error_detail :=
          match jsonRendering with
          | some j => j
          | none => if text ≠ "" then text else "(empty response body)"
        (false, .errText ("Status " ++ toString status ++ ": " ++ error_detail))
  | .connectionError url msg =>
      (false, .errText ("Connection Error - Could not reach " ++ url ++ ". Detail: " ++ msg))
  | .timeout msg =>
      (false, .errText ("Timeout Error: " ++ msg))
  | .otherError msg =>
      (false, .errText ("Unexpected Error: " ++ msg))

/-- The claim's failure condition: a non-2xx HTTP status, or any transport
failure. -/
def isFailureOutcome (o : HttpOutcome) : Prop :=
  match o with
  | .response status _ _ => ¬ (200 ≤ status ∧ status < 300)
  | .connectionError _ _ => True
  | .timeout _ => True
  | .otherError _ => True

instance (o : HttpOutcome) : Decidable (isFailureOutcome o) :=
  match o with
  | .response status _ _ => inferInstanceAs (Decidable (¬ (200 ≤ status ∧ status < 300)))
  | .connectionError _ _ => inferInstanceAs (Decidable True)
  | .timeout _ => inferInstanceAs (Decidable True)
  | .otherError _ => inferInstanceAs (Decidable True)

/-- The text the claim says must appear as the detail: the response body
(its JSON rendering when the body parsed, the raw text otherwise) for an
HTTP error, or the transport error text for an exception. -/
def failureBodyText (o : HttpOutcome) : String :=
  match o with
  | .response _ text jsonRendering =>
      match jsonRendering with
      | some j => j
      | none => if text ≠ "" then text else "(empty response body)"
  | .connectionError _ msg => msg
  | .timeout msg => msg
  | .otherError msg => msg

/-! ## Configuration documents and `identify_config_type`
(src/app.py lines 66-78)

`identify_config_type` only inspects which top-level keys the JSON object
has (`"workflowId" in config` is Python key membership), so a document is
modelled by its ordered list of top-level keys. -/

structure JsonDoc where
  keys : List String
deriving DecidableEq, Repr

/-- Embedding of `identify_config_type` (src/app.py lines 66-78). -/
def identify_config_type (config : JsonDoc) : Option String :=
  if "workflowId" ∈ config.keys then some "workflow"
  else if "apiId" ∈ config.keys then some "api"
  else if "transformId" ∈ config.keys then some "transform"
  else if "applicationId" ∈ config.keys then some "application"
  else if "connectionId" ∈ config.keys then some "connection"
  else none

/-! ## `deploy_configurations` (src/app.py lines 80-105)

The config store is a Python dict keyed by kind; it is modelled as an
insertion-ordered association list.  The outcome of each HTTP post is
supplied by a `world` function from `(endpoint, payload)` to the
`HttpOutcome` that `requests.post` would produce there; each post is then
interpreted through `call_hdc_api` exactly as the source does.  Besides
the per-kind results dict the embedding records the trace of posts made,
in order, so that the posting order is provable. -/

def lookupConfig (configs : List (String × JsonDoc)) (k : String) : Option JsonDoc :=
  (configs.find? (fun p => p.1 = k)).map Prod.snd

/-- The `endpoint_map` dict (src/app.py lines 85-91). -/
def endpoint_map : List (String × String) :=
  [("application", "/api/v1/applications"),
   ("connection", "/api/v1/connections"),
   ("api", "/api/v1/apis"),
   ("transform", "/api/v1/transforms"),
   ("workflow", "/api/v1/workflows")]

def endpointFor (config_type : String) : String :=
  ((endpoint_map.find? (fun p => p.1 = config_type)).map Prod.snd).getD ""

/-- The fixed deployment order (src/app.py line 94). -/
def deploy_order : List String :=
  ["application", "connection", "api", "transform", "workflow"]

/-- One entry of the `results` dict: `{"success": ..., "response": ...}`. -/
structure DeployResult where
  success : Bool
  response : HdcDetail
deriving DecidableEq, Repr

/-- Return value of the deploy loop: the `results` dict (insertion order)
plus the instrumentation trace of `(endpoint, payload)` posts made. -/
structure DeployRun where
  results : List (String × DeployResult)
  calls : List (String × JsonDoc)
deriving DecidableEq, Repr

/-- One iteration of the deploy loop (the body of the `for config_type in
order` loop, src/app.py lines 96-103): a kind absent from `configs` is
skipped, a present kind is posted and its success/response recorded. -/
def deploy_step (world : String → JsonDoc → HttpOutcome)
    (configs : List (String × JsonDoc)) (run : DeployRun)
    (config_type : String) : DeployRun :=
  match lookupConfig configs config_type with
  | some doc =>
      let endpoint := endpointFor config_type
      let r := call_hdc_api (world endpoint doc)
      { results := run.results ++ [(config_type, ⟨r.1, r.2⟩)],
        calls := run.calls ++ [(endpoint, doc)] }
  | none => run

/-- Embedding of `deploy_configurations` (src/app.py lines 80-105): walk
the fixed order, skip kinds absent from `configs`, post each present kind
and record its per-kind success/response. -/
def deploy_configurations (world : String → JsonDoc → HttpOutcome)
    (configs : List (String × JsonDoc)) : DeployRun :=
  deploy_order.foldl (deploy_step world configs) ⟨[], []⟩

/-- The per-kind result the deploy loop records for a present document. -/
def deployResultFor (world : String → JsonDoc → HttpOutcome)
    (config_type : String) (doc : JsonDoc) : DeployResult :=
  ⟨(call_hdc_api (world (endpointFor config_type) doc)).1,
   (call_hdc_api (world (endpointFor config_type) doc)).2⟩

/-! ## JSON-block extraction (`extract_json_blocks`, src/app.py lines 53-64)

The source regex-scans the assistant text for ```json fences and runs
`json.loads` on each block, appending successfully parsed blocks and
passing silently on parse failure.  The fenced blocks are modelled by the
list of their per-block parse outcomes (the Python `json.loads` of the
standard library is the external parser): each block either parsed to a
document or raised with an error message. -/

inductive BlockParse where
  | ok (doc : JsonDoc)
  | err (msg : String)
deriving DecidableEq, Repr

/-- Embedding of the loop of `extract_json_blocks` (src/app.py lines
57-64): append each block that parsed, silently skip each block whose
parse raised (`except: pass`).  The return type carries no error channel. -/
def extract_json_blocks (blocks : List BlockParse) : List JsonDoc :=
  blocks.foldl
    (fun results b =>
      match b with
      | .ok parsed => results ++ [parsed]
      | .err _ => results)
    []

/-! ## Session state and its handlers

`st.session_state` fields initialized at src/app.py lines 119-166. -/

structure ChatMessage where
  role : String
  content : String
deriving DecidableEq, Repr

/-- The welcome message appended both at first initialization (src/app.py
lines 121-136) and by the Clear Chat History handler (lines 1313-1328);
the two occurrences in the source are textually identical. -/
def welcome_text : String :=
  "👋 Welcome to HDC Workflow Builder! I can help you create professional health data integration workflows. \n\nWhat type of workflow would you like to create today?\n\n**1.** Call API and return raw response\n\n**2.** Call API and transform the response  \n\n**3.** Transform JSON to different formated JSON\n\n**4.** Transform HL7 to JSON\n\nPlease select an option (1-4)"

structure SessionState where
  messages : List ChatMessage
  workflow_type : Option String
  workflow_name : Option String
  last_configs : List (String × JsonDoc)
  deploy_results : Option (List (String × DeployResult))
  is_asking_questions : Bool
  continue_to_workflow : Bool
  workflow_in_progress : Bool
  needs_connection : Bool
  platform_type : Option String
  app_connection_deployed : Bool
deriving DecidableEq, Repr

/-- The session state after first initialization (src/app.py lines
119-166): the welcome message and every collected fact at its empty
default. -/
def initial_session_state : SessionState :=
  { messages := [⟨"assistant", welcome_text⟩],
    workflow_type := none,
    workflow_name := none,
    last_configs := [],
    deploy_results := none,
    is_asking_questions := false,
    continue_to_workflow := false,
    workflow_in_progress := false,
    needs_connection := false,
    platform_type := none,
    app_connection_deployed := false }

/-- Embedding of the Clear Chat History handler (src/app.py lines
1303-1329): reset the listed fields and append the welcome message to the
emptied message list.  The handler does not touch `is_asking_questions`
or `app_connection_deployed`, which the `with` update leaves unchanged. -/
def clear_chat_history (s : SessionState) : SessionState :=
  { s with
    messages := [⟨"assistant", welcome_text⟩],
    workflow_type := none,
    workflow_name := none,
    needs_connection := false,
    platform_type := none,
    last_configs := [],
    deploy_results := none,
    continue_to_workflow := false,
    workflow_in_progress := false }

/-- Python dict assignment `d[k] = v`: replace in place when the key
exists, append otherwise. -/
def dictInsert (store : List (String × JsonDoc)) (k : String) (v : JsonDoc) :
    List (String × JsonDoc) :=
  if store.any (fun p => p.1 == k) then
    store.map (fun p => if p.1 == k then (k, v) else p)
  else store ++ [(k, v)]

/-- Embedding of the config-storing loop (src/app.py lines 1137-1140):
each extracted document whose kind is identified is stored under that
kind; a document of no known kind is not stored. -/
def store_configs (extracted : List JsonDoc) (store : List (String × JsonDoc)) :
    List (String × JsonDoc) :=
  extracted.foldl
    (fun st config =>
      match identify_config_type config with
      | some config_type => dictInsert st config_type config
      | none => st)
    store

/-- The kinds the partial deploy handler selects (src/app.py line 1208). -/
def appConnKinds (k : String) : Bool :=
  k == "application" || k == "connection"

/-- Embedding of the Deploy Application & Connection Now handler
(src/app.py lines 1207-1217): deploy the application/connection subset of
the stored configs; on all-success drop that subset from the store and set
the deployed flag, otherwise record the failure results and leave the
store unchanged. -/
def deploy_app_connection_now (world : String → JsonDoc → HttpOutcome)
    (s : SessionState) : SessionState :=
  let subsetConfigs := s.last_configs.filter (fun p => appConnKinds p.1)
  let run := deploy_configurations world subsetConfigs
  let all_success := run.results.all (fun p => p.2.success)
  if all_success then
    { s with
      last_configs := s.last_configs.filter (fun p => !(appConnKinds p.1)),
      app_connection_deployed := true }
  else
    { s with deploy_results := some run.results }

/-- The top-level keys of a generated Template document (the TEMPLATE
JSON format of the system prompt, src/app.py lines 619-666). -/
def templateKeys : List String :=
  ["templateId", "templateBody", "escapeTokens", "defaultTokenValue", "throwTokenException"]

/-! ## Path parsing (system prompt, src/app.py lines 536-612)

The prompt's path-parameter algorithm: `apiPath` is the first segment of
the path with the leading `/` removed; every remaining segment becomes one
`pathParameters` entry in order, a `\x7bname\x7d` segment as a `Value`
entry named `name` and any other segment as a `Literal` entry; the
`?key=...` query suffix feeds `queryParameters`, not the path segments. -/

inductive PathValueType where
  | Value
  | Literal
deriving DecidableEq, Repr

structure PathSegment where
  value : String
  valueType : PathValueType
deriving DecidableEq, Repr

/-- The opening brace character of a dynamic segment. -/
def lBrace : Char := Char.ofNat 123

/-- The closing brace character of a dynamic segment. -/
def rBrace : Char := Char.ofNat 125

/-- Classify one path segment: a braced segment is a dynamic `Value`
named by the text inside the braces, anything else a `Literal`. -/
def parseSegment (tok : String) : PathSegment :=
  let cs := tok.toList
  if cs.head? == some lBrace && cs.getLast? == some rBrace then
    ⟨String.mk (cs.drop 1).dropLast, .Value⟩
  else ⟨tok, .Literal⟩

def stripLeadingSlash (path : String) : String :=
  match path.toList with
  | c :: rest => if c = '/' then String.mk rest else path
  | [] => path

/-- Drop the `?key=...` query suffix, which the prompt routes to
`queryParameters` rather than path segments. -/
def stripQuery (path : String) : String :=
  String.mk (path.toList.takeWhile (fun c => c != '?'))

/-- Split a character list at every occurrence of `sep` (the semantics of
Python's `str.split`). -/
def splitChars (sep : Char) : List Char → List (List Char)
  | [] => [[]]
  | c :: rest =>
      match splitChars sep rest with
      | [] => if c = sep then [[], []] else [[c]]
      | h :: t => if c = sep then [] :: h :: t else (c :: h) :: t

def splitPath (path : String) : List String :=
  (splitChars '/' (stripLeadingSlash (stripQuery path)).toList).map String.mk

/-- The prompt's path-splitting rule: first segment (error when empty)
becomes `apiPath`, all remaining segments become the ordered
`pathParameters` list, one entry per segment. -/
def parsePath (path : String) : Option (String × List PathSegment) :=
  match splitPath path with
  | [] => none
  | first :: rest => if first = "" then none else some (first, rest.map parseSegment)

/-! ## Step chaining (system prompt, src/app.py lines 409-480 and
792-883)

The prompt fixes, per workflow archetype, the exact ordered step chain
and, per step type, the exact input/output mappings (with the project
name interpolated into the referenced ids and a free descriptive label on
the final SetReturnData step).  Those concrete templates are embedded
verbatim. -/

inductive StepType where
  | HL7TransformStep
  | DataTransformStep
  | HttpCallStep
  | DeserializeObjectStep
  | SetReturnDataStep
deriving DecidableEq, Repr

structure WorkflowStep where
  stepType : StepType
  sequence : Nat
  input : List (String × String)
  output : List (String × String)
deriving DecidableEq, Repr

inductive WorkflowType where
  | rawApiCall
  | apiCallTransform
  | jsonToJson
  | hl7ToJson
deriving DecidableEq, Repr

/-- The fixed step chains: Type 1 HttpCall → DeserializeObject →
SetReturnData; Type 2 HttpCall (with transformId) → SetReturnData; Type 3
DataTransform → SetReturnData; Type 4 HL7Transform → SetReturnData, with
the step templates of the prompt's STEP-SPECIFIC INPUT/OUTPUT PATTERNS
section. -/
def buildSteps (wt : WorkflowType) (projectName returnLabel : String) :
    List WorkflowStep :=
  match wt with
  | .rawApiCall =>
      [⟨.HttpCallStep, 0, [("apiId", projectName ++ "-API")],
        [("rawApiResponse", "ResponseData")]⟩,
       ⟨.DeserializeObjectStep, 1, [("data", "rawApiResponse")],
        [("deserializedData", "OutputObject")]⟩,
       ⟨.SetReturnDataStep, 2, [(returnLabel, "deserializedData")], []⟩]
  | .apiCallTransform =>
      [⟨.HttpCallStep, 0,
        [("apiId", projectName ++ "-API"), ("transformId", projectName ++ "-Response-DT")],
        [("transformedData", "TransformedData"), ("rawApiResponse", "ResponseData")]⟩,
       ⟨.SetReturnDataStep, 1, [(returnLabel, "transformedData")], []⟩]
  | .jsonToJson =>
      [⟨.DataTransformStep, 0,
        [("transformDataInput", "Body"), ("transformId", projectName ++ "-DT")],
        [("transformedData", "TransformedData")]⟩,
       ⟨.SetReturnDataStep, 1, [(returnLabel, "transformedData")], []⟩]
  | .hl7ToJson =>
      [⟨.HL7TransformStep, 0,
        [("consistentArray", "true"), ("transformId", projectName ++ "-HL7-DT"),
         ("transformDataInput", "$Body")],
        [("transformedData", "TransformedData")]⟩,
       ⟨.SetReturnDataStep, 1, [(returnLabel, "transformedData")], []⟩]

def hasInputKey (s : WorkflowStep) (k : String) : Bool :=
  s.input.any (fun p => p.1 == k)

def outputLookup (s : WorkflowStep) (k : String) : Option String :=
  (s.output.find? (fun p => p.1 == k)).map Prod.snd

lemma deploy_foldl_results (world : String → JsonDoc → HttpOutcome)
    (configs : List (String × JsonDoc)) :
    ∀ (l : List String) (acc : DeployRun),
      (l.foldl (deploy_step world configs) acc).results =
        acc.results ++ l.filterMap (fun ct =>
          (lookupConfig configs ct).map (fun doc => (ct, deployResultFor world ct doc))) := by
  intro l
  induction l with
  | nil => intro acc; simp
  | cons hd tl ih =>
      intro acc
      cases hcfg : lookupConfig configs hd <;>
        simp [deploy_step, hcfg, ih, deployResultFor]

lemma deploy_foldl_calls (world : String → JsonDoc → HttpOutcome)
    (configs : List (String × JsonDoc)) :
    ∀ (l : List String) (acc : DeployRun),
      (l.foldl (deploy_step world configs) acc).calls =
        acc.calls ++ l.filterMap (fun ct =>
          (lookupConfig configs ct).map (fun doc => (endpointFor ct, doc))) := by
  intro l
  induction l with
  | nil => intro acc; simp
  | cons hd tl ih =>
      intro acc
      cases hcfg : lookupConfig configs hd <;>
        simp [deploy_step, hcfg, ih]

lemma filterMap_tag_fst {α β : Type} (g : String → Option α) (h : String → α → β)
    (l : List String) :
    (l.filterMap (fun ct => (g ct).map (fun a => (ct, h ct a)))).map Prod.fst =
      l.filter (fun ct => (g ct).isSome) := by
  induction l with
  | nil => rfl
  | cons hd tl ih =>
      cases hg : g hd <;> simp [List.filterMap_cons, hg, List.filter_cons, ih]

lemma extract_foldl (blocks : List BlockParse) :
    ∀ acc : List JsonDoc,
      blocks.foldl
        (fun results b =>
          match b with
          | BlockParse.ok parsed => results ++ [parsed]
          | BlockParse.err _ => results) acc =
      acc ++ blocks.filterMap
        (fun b => match b with | BlockParse.ok doc => some doc | BlockParse.err _ => none) := by
  induction blocks with
  | nil => intro acc; simp
  | cons hd tl ih =>
      intro acc
      cases hd <;> simp [ih]

lemma lookupConfig_mem {store : List (String × JsonDoc)} {k : String} {v : JsonDoc}
    (h : lookupConfig store k = some v) : (k, v) ∈ store := by
  unfold lookupConfig at h
  cases hf : store.find? (fun p => p.1 = k) with
  | none => rw [hf] at h; cases h
  | some p =>
      rw [hf] at h
      have hpv : p.2 = v := by simpa using h
      have hmem := List.mem_of_find?_eq_some hf
      have hk : p.1 = k := by
        have := List.find?_some hf
        simpa using this
      cases p with
      | mk a b =>
          simp only at hk hpv
          rw [← hk, ← hpv]
          exact hmem

lemma mem_dictInsert {store : List (String × JsonDoc)} {k : String} {v : JsonDoc}
    {kv : String × JsonDoc} (h : kv ∈ dictInsert store k v) :
    kv ∈ store ∨ kv = (k, v) := by
  unfold dictInsert at h
  by_cases hany : store.any (fun p => p.1 == k) = true
  · rw [if_pos hany] at h
    obtain ⟨p, hp, hpe⟩ := List.mem_map.mp h
    by_cases hk : p.1 == k
    · right; rw [if_pos hk] at hpe; exact hpe.symm
    · left; rw [if_neg hk] at hpe; exact hpe ▸ hp
  · rw [if_neg hany] at h
    rcases List.mem_append.mp h with h1 | h2
    · exact Or.inl h1
    · right; simpa using h2

lemma store_configs_identified (docs : List JsonDoc) :
    ∀ store : List (String × JsonDoc),
      (∀ kv ∈ store, (identify_config_type kv.2).isSome) →
      ∀ kv ∈ store_configs docs store, (identify_config_type kv.2).isSome := by
  induction docs with
  | nil =>
      intro store h kv hkv
      exact h kv (by simpa [store_configs] using hkv)
  | cons d rest ih =>
      intro store h kv hkv
      cases hid : identify_config_type d with
      | none =>
          exact ih store h kv (by simpa [store_configs, hid] using hkv)
      | some ct =>
          refine ih (dictInsert store ct d) ?_ kv (by simpa [store_configs, hid] using hkv)
          intro kv' hkv'
          rcases mem_dictInsert hkv' with hm | hkd
          · exact h kv' hm
          · rw [hkd]; simp [hid]

end HdcAgent

namespace HdcAgent

/-- C1: any non-2xx response or transport failure makes `call_hdc_api`
return `success = false`, with the response body (or the transport error
text) carried in the error detail: the returned detail is a plain error
string ending in that text.  The function is total, so no exception
escapes this boundary. -/
theorem call_hdc_api_failure (o : HttpOutcome) (h : isFailureOutcome o) :
    (call_hdc_api o).1 = false ∧
    ∃ pre, (call_hdc_api o).2 = .errText (pre ++ failureBodyText o) := by
  cases o with
  | response status text jsonRendering =>
      have hst : ¬ (status = 200 ∨ status = 201 ∨ status = 204) := by
        simp only [isFailureOutcome] at h
        rintro (rfl | rfl | rfl) <;> exact h (by omega)
      refine ⟨by simp [call_hdc_api, hst], ?_⟩
      refine ⟨"Status " ++ toString status ++ ": ", ?_⟩
      cases jsonRendering <;> simp [call_hdc_api, hst, failureBodyText]
  | connectionError url msg =>
      exact ⟨rfl, "Connection Error - Could not reach " ++ url ++ ". Detail: ", rfl⟩
  | timeout msg => exact ⟨rfl, "Timeout Error: ", rfl⟩
  | otherError msg => exact ⟨rfl, "Unexpected Error: ", rfl⟩

/-- Witness for C1 at a concrete failing response: HTTP 404 with body
"Not Found" that did not parse as JSON. -/
theorem call_hdc_api_failure_witness :
    isFailureOutcome (HttpOutcome.response 404 "Not Found" none) ∧
    ((call_hdc_api (HttpOutcome.response 404 "Not Found" none)).1 = false ∧
     ∃ pre, (call_hdc_api (HttpOutcome.response 404 "Not Found" none)).2 =
       .errText (pre ++ failureBodyText (HttpOutcome.response 404 "Not Found" none))) :=
  ⟨by decide, call_hdc_api_failure (HttpOutcome.response 404 "Not Found" none) (by decide)⟩

/-- C2: for every input mapping and every behaviour of the remote service,
the posts made by `deploy_configurations` are exactly the present document
kinds in the fixed order application, connection, api, transform, workflow
(each to its endpoint), the keys of the results dict are exactly the
present kinds in that order, and an absent kind yields no result entry. -/
theorem deploy_order_and_skip (world : String → JsonDoc → HttpOutcome)
    (configs : List (String × JsonDoc)) :
    (deploy_configurations world configs).calls =
      deploy_order.filterMap (fun ct =>
        (lookupConfig configs ct).map (fun doc => (endpointFor ct, doc))) ∧
    (deploy_configurations world configs).results.map Prod.fst =
      deploy_order.filter (fun ct => (lookupConfig configs ct).isSome) ∧
    ∀ ct : String, lookupConfig configs ct = none →
      ∀ r : DeployResult, (ct, r) ∉ (deploy_configurations world configs).results := by
  refine ⟨?_, ?_, ?_⟩
  · rw [deploy_configurations, deploy_foldl_calls]
    simp
  · rw [deploy_configurations, deploy_foldl_results]
    simpa using filterMap_tag_fst (lookupConfig configs) (deployResultFor world) deploy_order
  · intro ct hnone r hmem
    rw [deploy_configurations, deploy_foldl_results] at hmem
    simp only [List.nil_append, List.mem_filterMap, Option.map_eq_some'] at hmem
    obtain ⟨ct', _, doc, hsome, heq⟩ := hmem
    have hct : ct' = ct := congrArg Prod.fst heq
    rw [hct, hnone] at hsome
    exact Option.noConfusion hsome

/-- C7: a failed deploy of one kind does not abort the later kinds — for
any behaviour of the remote service (including earlier kinds failing),
every kind present in the input mapping is attempted, and its result entry
records the outcome of its own call. -/
theorem deploy_attempts_each_kind (world : String → JsonDoc → HttpOutcome)
    (configs : List (String × JsonDoc)) (ct : String) (doc : JsonDoc)
    (hct : ct ∈ deploy_order) (hdoc : lookupConfig configs ct = some doc) :
    (ct, deployResultFor world ct doc) ∈ (deploy_configurations world configs).results := by
  rw [deploy_configurations, deploy_foldl_results]
  simp only [List.nil_append, List.mem_filterMap]
  exact ⟨ct, hct, by simp [hdoc]⟩

/-- Witness for C7: the remote service rejects the application post with a
500 but accepts everything else; the workflow kind, present alongside the
failing application, is still attempted and its entry records its own
(successful) outcome. -/
theorem deploy_attempts_each_kind_witness :
    ("workflow" ∈ deploy_order ∧
     lookupConfig [("application", JsonDoc.mk ["applicationId"]),
                   ("workflow", JsonDoc.mk ["workflowId"])] "workflow" =
       some (JsonDoc.mk ["workflowId"])) ∧
    ("workflow",
      deployResultFor
        (fun endpoint _ =>
          if endpoint = "/api/v1/applications" then HttpOutcome.response 500 "err" none
          else HttpOutcome.response 200 "done" none)
        "workflow" (JsonDoc.mk ["workflowId"])) ∈
      (deploy_configurations
        (fun endpoint _ =>
          if endpoint = "/api/v1/applications" then HttpOutcome.response 500 "err" none
          else HttpOutcome.response 200 "done" none)
        [("application", JsonDoc.mk ["applicationId"]),
         ("workflow", JsonDoc.mk ["workflowId"])]).results :=
  ⟨⟨by decide, by decide⟩,
    deploy_attempts_each_kind
      (fun endpoint _ =>
        if endpoint = "/api/v1/applications" then HttpOutcome.response 500 "err" none
        else HttpOutcome.response 200 "done" none)
      [("application", JsonDoc.mk ["applicationId"]),
       ("workflow", JsonDoc.mk ["workflowId"])]
      "workflow" (JsonDoc.mk ["workflowId"]) (by decide) (by decide)⟩

/-- C3: for every archetype and all workflow content (project name and
return label), each step the chainer emits publishes the fixed
output-value constant of its step type: an HttpCall step without
transformId publishes exactly the mapping rawApiResponse ↦ "ResponseData",
an HttpCall step with transformId publishes "TransformedData" under its
transformedData key, a DeserializeObject step publishes "OutputObject",
and DataTransform/HL7Transform steps publish "TransformedData". -/
theorem buildSteps_output_constants (wt : WorkflowType) (projectName returnLabel : String)
    (s : WorkflowStep) (hs : s ∈ buildSteps wt projectName returnLabel) :
    (s.stepType = StepType.HttpCallStep → hasInputKey s "transformId" = false →
       s.output = [("rawApiResponse", "ResponseData")]) ∧
    (s.stepType = StepType.HttpCallStep → hasInputKey s "transformId" = true →
       outputLookup s "transformedData" = some "TransformedData") ∧
    (s.stepType = StepType.DeserializeObjectStep →
       s.output = [("deserializedData", "OutputObject")]) ∧
    (s.stepType = StepType.DataTransformStep →
       s.output = [("transformedData", "TransformedData")]) ∧
    (s.stepType = StepType.HL7TransformStep →
       s.output = [("transformedData", "TransformedData")]) := by
  cases wt <;> simp only [buildSteps, List.mem_cons, List.not_mem_nil, or_false] at hs
  · rcases hs with rfl | rfl | rfl <;> simp [hasInputKey, outputLookup]
  · rcases hs with rfl | rfl <;> simp [hasInputKey, outputLookup]
  · rcases hs with rfl | rfl <;> simp [hasInputKey, outputLookup]
  · rcases hs with rfl | rfl <;> simp [hasInputKey, outputLookup]

/-- Witness for C3 at the transform archetype's HttpCall step of a
concrete workflow: it carries a transformId and publishes
"TransformedData". -/
theorem buildSteps_output_constants_witness :
    (WorkflowStep.mk StepType.HttpCallStep 0
        [("apiId", "Proj-API"), ("transformId", "Proj-Response-DT")]
        [("transformedData", "TransformedData"), ("rawApiResponse", "ResponseData")] ∈
      buildSteps WorkflowType.apiCallTransform "Proj" "Result") ∧
    ((WorkflowStep.mk StepType.HttpCallStep 0
        [("apiId", "Proj-API"), ("transformId", "Proj-Response-DT")]
        [("transformedData", "TransformedData"), ("rawApiResponse", "ResponseData")]).stepType =
          StepType.HttpCallStep →
      hasInputKey
        (WorkflowStep.mk StepType.HttpCallStep 0
          [("apiId", "Proj-API"), ("transformId", "Proj-Response-DT")]
          [("transformedData", "TransformedData"), ("rawApiResponse", "ResponseData")])
        "transformId" = true →
      outputLookup
        (WorkflowStep.mk StepType.HttpCallStep 0
          [("apiId", "Proj-API"), ("transformId", "Proj-Response-DT")]
          [("transformedData", "TransformedData"), ("rawApiResponse", "ResponseData")])
        "transformedData" = some "TransformedData") :=
  ⟨by decide,
   (buildSteps_output_constants WorkflowType.apiCallTransform "Proj" "Result"
      (WorkflowStep.mk StepType.HttpCallStep 0
        [("apiId", "Proj-API"), ("transformId", "Proj-Response-DT")]
        [("transformedData", "TransformedData"), ("rawApiResponse", "ResponseData")])
      (by decide)).2.1⟩

/-- C4: whenever the parser accepts a path template, the first segment is
`apiPath`, the remaining segments become the ordered `pathParameters` list
with one entry per segment (braced segments as `Value`, others as
`Literal`), and in particular a segment classified as a `Literal` named n
directly followed by one classified as a `Value` named n yields two
separate consecutive entries — never one merged entry. -/
theorem parsePath_splits_segments (path api : String) (params : List PathSegment)
    (h : parsePath path = some (api, params)) :
    api = (splitPath path).headD "" ∧
    params = ((splitPath path).drop 1).map parseSegment ∧
    (∀ (pre mid : List String) (name dyn : String),
      (splitPath path).drop 1 = pre ++ name :: dyn :: mid →
      parseSegment name = ⟨name, PathValueType.Literal⟩ →
      parseSegment dyn = ⟨name, PathValueType.Value⟩ →
      params = pre.map parseSegment ++
        ⟨name, PathValueType.Literal⟩ :: ⟨name, PathValueType.Value⟩ :: mid.map parseSegment) := by
  cases hsp : splitPath path with
  | nil => rw [parsePath, hsp] at h; cases h
  | cons first rest =>
      rw [parsePath, hsp] at h
      dsimp only at h
      by_cases hf : first = ""
      · rw [if_pos hf] at h; cases h
      · rw [if_neg hf] at h
        have hapi : first = api := congrArg (fun q => Prod.fst q) (Option.some.inj h)
        have hparams : rest.map parseSegment = params :=
          congrArg (fun q => Prod.snd q) (Option.some.inj h)
        refine ⟨by simp [hsp, hapi], by simp [hsp, hparams], ?_⟩
        intro pre mid name dyn hdec hlit hval
        simp only [List.drop_one, List.tail_cons] at hdec
        rw [← hparams, hdec]
        simp [hlit, hval]

/-- Witness for C4 at the repeated-name path of the source's example
(`/patient/{id}/patientname/{patientname}`): the parse succeeds with
apiPath "patient", and applying the theorem's no-merge clause at the
literal "patientname" followed by the braced "patientname" yields the two
distinct consecutive entries. -/
theorem parsePath_splits_segments_witness :
    parsePath "/patient/\x7bid\x7d/patientname/\x7bpatientname\x7d" =
      some ("patient",
        [⟨"id", PathValueType.Value⟩,
         ⟨"patientname", PathValueType.Literal⟩,
         ⟨"patientname", PathValueType.Value⟩]) ∧
    ("patient" = (splitPath "/patient/\x7bid\x7d/patientname/\x7bpatientname\x7d").headD "" ∧
     [(⟨"id", PathValueType.Value⟩ : PathSegment),
      ⟨"patientname", PathValueType.Literal⟩,
      ⟨"patientname", PathValueType.Value⟩] =
       ((splitPath "/patient/\x7bid\x7d/patientname/\x7bpatientname\x7d").drop 1).map parseSegment ∧
     (∀ (pre mid : List String) (name dyn : String),
       (splitPath "/patient/\x7bid\x7d/patientname/\x7bpatientname\x7d").drop 1 =
         pre ++ name :: dyn :: mid →
       parseSegment name = ⟨name, PathValueType.Literal⟩ →
       parseSegment dyn = ⟨name, PathValueType.Value⟩ →
       [(⟨"id", PathValueType.Value⟩ : PathSegment),
        ⟨"patientname", PathValueType.Literal⟩,
        ⟨"patientname", PathValueType.Value⟩] =
         pre.map parseSegment ++
           ⟨name, PathValueType.Literal⟩ :: ⟨name, PathValueType.Value⟩ ::
             mid.map parseSegment)) :=
  ⟨by decide,
   parsePath_splits_segments "/patient/\x7bid\x7d/patientname/\x7bpatientname\x7d"
     "patient"
     [⟨"id", PathValueType.Value⟩,
      ⟨"patientname", PathValueType.Literal⟩,
      ⟨"patientname", PathValueType.Value⟩]
     (by decide)⟩

/-- C6 counterexample: a generated JSON block whose parse fails is
silently discarded by `extract_json_blocks` — the function's output on a
failing block is identical to its output on no blocks at all, and its
return type carries no error channel, so the parse error is never
reported to the caller. -/
theorem extract_json_blocks_silently_drops :
    extract_json_blocks [BlockParse.err "Expecting value: line 1 column 1 (char 0)"] =
      extract_json_blocks [] ∧
    extract_json_blocks [BlockParse.err "Expecting value: line 1 column 1 (char 0)"] = [] := by
  decide

/-- C6 as amended: errors from parsing generated JSON blocks are silently
swallowed — `extract_json_blocks` returns exactly the successfully parsed
blocks, in order, and discards every failing block together with its
error message. -/
theorem extract_json_blocks_keeps_only_parsed (blocks : List BlockParse) :
    extract_json_blocks blocks =
      blocks.filterMap
        (fun b => match b with | BlockParse.ok doc => some doc | BlockParse.err _ => none) := by
  rw [extract_json_blocks]
  simpa using extract_foldl blocks []

/-- C8: the Clear Chat History handler resets every collected fact —
workflow type, workflow name, platform, connection need, stored
configuration documents, and deployment results — back to its initial
empty value, from any session state. -/
theorem clear_chat_history_resets (s : SessionState) :
    (clear_chat_history s).workflow_type = none ∧
    (clear_chat_history s).workflow_name = none ∧
    (clear_chat_history s).platform_type = none ∧
    (clear_chat_history s).needs_connection = false ∧
    (clear_chat_history s).last_configs = [] ∧
    (clear_chat_history s).deploy_results = none ∧
    (clear_chat_history s).workflow_type = initial_session_state.workflow_type ∧
    (clear_chat_history s).workflow_name = initial_session_state.workflow_name ∧
    (clear_chat_history s).platform_type = initial_session_state.platform_type ∧
    (clear_chat_history s).needs_connection = initial_session_state.needs_connection ∧
    (clear_chat_history s).last_configs = initial_session_state.last_configs ∧
    (clear_chat_history s).deploy_results = initial_session_state.deploy_results ∧
    (clear_chat_history s).messages = initial_session_state.messages := by
  simp [clear_chat_history, initial_session_state]

/-- C9: a generated Template document (top-level keys of the Template
format, led by templateId) is classified as no known config kind, is never
stored by the config-storing loop, and has no deployment endpoint:
deploy_configurations produces no "template" result entry for any input,
and a Template document never appears among the posted payloads when
deploying a store built by the storing loop. -/
theorem template_doc_ignored (d : JsonDoc) (hd : d.keys = templateKeys) :
    identify_config_type d = none ∧
    (∀ store, store_configs [d] store = store) ∧
    "template" ∉ deploy_order ∧
    (∀ (world : String → JsonDoc → HttpOutcome) (configs : List (String × JsonDoc))
       (r : DeployResult), ("template", r) ∉ (deploy_configurations world configs).results) ∧
    (∀ (world : String → JsonDoc → HttpOutcome) (docs : List JsonDoc) (ep : String),
       (ep, d) ∉ (deploy_configurations world (store_configs docs [])).calls) := by
  have hid : identify_config_type d = none := by
    simp [identify_config_type, hd, templateKeys]
  refine ⟨hid, ?_, by decide, ?_, ?_⟩
  · intro store
    simp [store_configs, hid]
  · intro world configs r hmem
    rw [deploy_configurations, deploy_foldl_results] at hmem
    simp only [List.nil_append, List.mem_filterMap, Option.map_eq_some'] at hmem
    obtain ⟨ct, hct, doc, _, heq⟩ := hmem
    have hctn : ct = "template" := congrArg Prod.fst heq
    rw [hctn] at hct
    exact absurd hct (by decide)
  · intro world docs ep hmem
    rw [deploy_configurations, deploy_foldl_calls] at hmem
    simp only [List.nil_append, List.mem_filterMap, Option.map_eq_some'] at hmem
    obtain ⟨ct, _, doc, hl, heq⟩ := hmem
    have hdoc : doc = d := congrArg Prod.snd heq
    rw [hdoc] at hl
    have hsome := store_configs_identified docs [] (by simp) (ct, d) (lookupConfig_mem hl)
    rw [hid] at hsome
    simp at hsome

/-- Witness for C9 at the concrete Template document with exactly the
Template format's keys. -/
theorem template_doc_ignored_witness :
    (JsonDoc.mk templateKeys).keys = templateKeys ∧
    (identify_config_type (JsonDoc.mk templateKeys) = none ∧
     (∀ store, store_configs [JsonDoc.mk templateKeys] store = store) ∧
     "template" ∉ deploy_order ∧
     (∀ (world : String → JsonDoc → HttpOutcome) (configs : List (String × JsonDoc))
        (r : DeployResult), ("template", r) ∉ (deploy_configurations world configs).results) ∧
     (∀ (world : String → JsonDoc → HttpOutcome) (docs : List JsonDoc) (ep : String),
        (ep, JsonDoc.mk templateKeys) ∉
          (deploy_configurations world (store_configs docs [])).calls)) :=
  ⟨rfl, template_doc_ignored (JsonDoc.mk templateKeys) rfl⟩

/-- C10: the partial application-and-connection deploy updates the store
atomically — the store changes only when every deploy call of the
selected subset succeeded, and when any call fails the store is left
unchanged and the failure results are recorded in deploy_results. -/
theorem deploy_app_conn_atomic (world : String → JsonDoc → HttpOutcome) (s : SessionState) :
    ((deploy_app_connection_now world s).last_configs ≠ s.last_configs →
      ∀ p ∈ (deploy_configurations world
          (s.last_configs.filter (fun q => appConnKinds q.1))).results,
        p.2.success = true) ∧
    ((∃ p ∈ (deploy_configurations world
          (s.last_configs.filter (fun q => appConnKinds q.1))).results,
        p.2.success = false) →
      (deploy_app_connection_now world s).last_configs = s.last_configs ∧
      (deploy_app_connection_now world s).deploy_results =
        some (deploy_configurations world
          (s.last_configs.filter (fun q => appConnKinds q.1))).results) := by
  by_cases hall :
      (deploy_configurations world
        (s.last_configs.filter (fun q => appConnKinds q.1))).results.all
        (fun p => p.2.success) = true
  · constructor
    · intro _ p hp
      exact List.all_eq_true.mp hall p hp
    · rintro ⟨p, hp, hfalse⟩
      have := List.all_eq_true.mp hall p hp
      rw [hfalse] at this
      cases this
  · have hall' :
        (deploy_configurations world
          (s.last_configs.filter (fun q => appConnKinds q.1))).results.all
          (fun p => p.2.success) = false := by
      simpa using hall
    constructor
    · intro hne
      exact absurd (by simp [deploy_app_connection_now, hall']) hne
    · intro _
      exact ⟨by simp [deploy_app_connection_now, hall'],
             by simp [deploy_app_connection_now, hall']⟩

/-- Witness for C10: the remote service answers 500 to everything; for a
session holding one application config, the failure leaves the store
unchanged and records the failing results. -/
theorem deploy_app_conn_atomic_witness :
    (∃ p ∈ (deploy_configurations (fun _ _ => HttpOutcome.response 500 "err" none)
        ((SessionState.mk [⟨"assistant", welcome_text⟩] none none
            [("application", JsonDoc.mk ["applicationId"])] none false false false false
            none false).last_configs.filter (fun q => appConnKinds q.1))).results,
        p.2.success = false) ∧
    ((deploy_app_connection_now (fun _ _ => HttpOutcome.response 500 "err" none)
        (SessionState.mk [⟨"assistant", welcome_text⟩] none none
          [("application", JsonDoc.mk ["applicationId"])] none false false false false
          none false)).last_configs =
      (SessionState.mk [⟨"assistant", welcome_text⟩] none none
        [("application", JsonDoc.mk ["applicationId"])] none false false false false
        none false).last_configs ∧
     (deploy_app_connection_now (fun _ _ => HttpOutcome.response 500 "err" none)
        (SessionState.mk [⟨"assistant", welcome_text⟩] none none
          [("application", JsonDoc.mk ["applicationId"])] none false false false false
          none false)).deploy_results =
      some (deploy_configurations (fun _ _ => HttpOutcome.response 500 "err" none)
        ((SessionState.mk [⟨"assistant", welcome_text⟩] none none
            [("application", JsonDoc.mk ["applicationId"])] none false false false false
            none false).last_configs.filter (fun q => appConnKinds q.1))).results) :=
  ⟨by decide,
   (deploy_app_conn_atomic (fun _ _ => HttpOutcome.response 500 "err" none)
      (SessionState.mk [⟨"assistant", welcome_text⟩] none none
        [("application", JsonDoc.mk ["applicationId"])] none false false false false
        none false)).2 (by decide)⟩

end HdcAgent
